import Mathlib

/-!
Shallow embedding of the VisionPAL Cognition engine
(`src/Cognition/{affect,memory_recall,cognitive_loop,perception,config}.py`).

Python floats used for times, valence/arousal and scores are modelled as
rationals; dictionaries with insertion order are modelled as association
lists; fallible operations (network calls, file reads) are modelled by
`Except` inputs describing the outcome of the call.
-/

/-- One entry of the `EMOTIONS` table in `config.py`. -/
structure EmotionTarget where
  valence : ℚ
  arousal : ℚ
  color : String
deriving DecidableEq

/-- The `EMOTIONS` mapping of `config.py` (insertion-ordered dict as assoc list). -/
def EMOTIONS : List (String × EmotionTarget) :=
  [ ("curious",  ⟨7/10, 5/10, "#FFD700"⟩),
    ("excited",  ⟨9/10, 8/10, "#FF6B35"⟩),
    ("calm",     ⟨5/10, 2/10, "#87CEEB"⟩),
    ("anxious",  ⟨3/10, 7/10, "#8B5CF6"⟩),
    ("happy",    ⟨9/10, 6/10, "#F59E0B"⟩),
    ("lonely",   ⟨2/10, 2/10, "#6366F1"⟩),
    ("startled", ⟨3/10, 9/10, "#EF4444"⟩),
    ("bored",    ⟨4/10, 1/10, "#9CA3AF"⟩) ]

/-- `EMOTIONS.get(e, EMOTIONS["calm"])` of `affect.py` line 94 / 103. -/
def emotionTarget (e : String) : EmotionTarget :=
  (EMOTIONS.lookup e).getD ⟨5/10, 2/10, "#87CEEB"⟩

/-- The `motor_state` argument of `Affect.update`: the callers pass either a
string (`"stopped"`, `"running"`) or — as `CognitiveLoop.run_cycle` line 218
actually does — a dict `{"moving": ..., "direction": ...}`. -/
inductive MotorState where
  | str (s : String)
  | dict (moving : Bool) (direction : String)
deriving DecidableEq

/-- Python `motor_state == "running"` (`affect.py` lines 36 and 59): a dict
never compares equal to a string. -/
def MotorState.eqRunning : MotorState → Bool
  | .str s => s == "running"
  | .dict _ _ => false

/-- An object-detection record inside a perception snapshot. -/
structure DetObj where
  label : String
  confidence : ℚ
deriving DecidableEq

/-- The perception-data dict flowing from `Perception.get_perception_data`
into `Affect.update`; `stale`/`age` are the optional keys added on staleness. -/
structure PerceptionData where
  timestamp : ℚ
  objects : List DetObj
  scene : String
  object_count : ℕ
  has_person : Bool
  stale : Option Bool
  age : Option ℚ
deriving DecidableEq

/-- Mutable state of the `Affect` class (`affect.py` lines 12-20). -/
structure Affect where
  current_emotion : String
  valence : ℚ
  arousal : ℚ
  history : List String
  person_seen_at : ℚ
  collision_at : ℚ
  moving_since : ℚ
  idle_since : ℚ
deriving DecidableEq

/-- `Affect.__init__` (construction time `t0` plays the role of `time.time()`). -/
def Affect.init (t0 : ℚ) : Affect :=
  { current_emotion := "calm", valence := 5/10, arousal := 2/10, history := [],
    person_seen_at := 0, collision_at := 0, moving_since := 0, idle_since := t0 }

/-- Event detection section of `Affect.update` (`affect.py` lines 29-43). -/
def Affect.eventUpdate (a : Affect) (now : ℚ) (has_person : Bool)
    (motor : MotorState) (collision : Bool) : Affect :=
  let a := if has_person then { a with person_seen_at := now } else a
  let a := if collision then { a with collision_at := now } else a
  if motor.eqRunning then
    { a with moving_since := if a.moving_since = 0 then now else a.moving_since,
             idle_since := 0 }
  else
    { a with idle_since := if a.idle_since = 0 then now else a.idle_since,
             moving_since := 0 }

/-- Raw emotion classification of `Affect.update` (`affect.py` lines 45-76),
evaluated on the state after event detection. -/
def Affect.classify (a : Affect) (now : ℚ) (has_person : Bool)
    (motor : MotorState) : String :=
  if now - a.collision_at < 3 then "startled"
  else if has_person then "happy"
  else if now - a.person_seen_at < 30 ∧ a.person_seen_at > 0 then "excited"
  else if motor.eqRunning then
    if now - a.moving_since > 10 then "excited" else "curious"
  else if a.idle_since > 0 then
    if now - a.idle_since > 120 then "lonely"
    else if now - a.idle_since > 60 then "bored"
    else "calm"
  else "calm"

/-- Emotion-transition smoothing of `Affect.update` (`affect.py` lines 78-86):
a non-startled emotion differing from the current one is committed only when
the previous raw classification (`history[-1]`) was the same. -/
def Affect.commit (a : Affect) (emotion : String) : Affect :=
  if emotion ≠ "startled" ∧ emotion ≠ a.current_emotion then
    if a.history.getLast? = some emotion then { a with current_emotion := emotion }
    else a
  else
    { a with current_emotion := emotion }

/-- History update of `Affect.update` (`affect.py` lines 88-91): append the raw
emotion, then `pop(0)` once if the length exceeds 10. -/
def Affect.pushHistory (a : Affect) (emotion : String) : Affect :=
  let h := a.history ++ [emotion]
  { a with history := if h.length > 10 then h.tail else h }

/-- Valence/arousal smoothing of `Affect.update` (`affect.py` lines 93-97). -/
def Affect.smooth (a : Affect) : Affect :=
  let t := emotionTarget a.current_emotion
  { a with valence := a.valence + (t.valence - a.valence) * (3/10),
           arousal := a.arousal + (t.arousal - a.arousal) * (3/10) }

/-- `Affect.update` (`affect.py` lines 22-99), assembled from its sections. -/
def Affect.update (a : Affect) (now : ℚ) (pd : PerceptionData)
    (motor : MotorState) (collision : Bool) : Affect :=
  let a := a.eventUpdate now pd.has_person motor collision
  let emotion := a.classify now pd.has_person motor
  ((a.commit emotion).pushHistory emotion).smooth

/-- Inputs of one `Affect.update` call. -/
structure CycleInput where
  now : ℚ
  pd : PerceptionData
  motor : MotorState
  collision : Bool

/-- A sequence of `Affect.update` calls. -/
def Affect.runUpdates (a : Affect) (l : List CycleInput) : Affect :=
  l.foldl (fun s c => s.update c.now c.pd c.motor c.collision) a

/-- One search result dict as produced by `_invoke_memory_search` or
`_search_files_fallback` (`memory_recall.py` lines 84-96 and 126-131);
keys missing from the fallback dicts are modelled by the zero defaults. -/
structure MemResult where
  text : String
  path : String
  source : String
  score : ℚ
  start_line : ℤ
  end_line : ℤ
  citation : String
deriving DecidableEq

/-- `os.path.basename`. -/
def basename (p : String) : String := ((p.splitOn "/").getLast?).getD ""

/-- Python `kw in s` substring test on strings. -/
def strContains (s kw : String) : Bool :=
  (s.toList.tails).any (fun t => kw.toList.isPrefixOf t)

/-- Python `query.lower().split()`. -/
def lowerSplit (query : String) : List String :=
  ((query.toLower).split (fun c => c.isWhitespace)).filter (fun w => w ≠ "")

/-- `re.split(r'\n#{1,3} ', content)` of `_search_files_fallback`:
split on a newline followed by one to three `#` and a space. -/
def splitParas : List Char → List (List Char)
  | [] => [[]]
  | '\n' :: '#' :: '#' :: '#' :: ' ' :: r => [] :: splitParas r
  | '\n' :: '#' :: '#' :: ' ' :: r => [] :: splitParas r
  | '\n' :: '#' :: ' ' :: r => [] :: splitParas r
  | c :: cs =>
    match splitParas cs with
    | [] => [[c]]
    | p :: ps => (c :: p) :: ps

/-- Inner paragraph loop of `_search_files_fallback` for one file
(`memory_recall.py` lines 117-131); a file whose read raised
(`Except.error`) is skipped by the `except: continue`, contributing nothing. -/
def fileResults (keywords : List String) (file : String × Except String String) :
    List MemResult :=
  match file.2 with
  | .error _ => []
  | .ok content =>
    let paragraphs := (splitParas content.toList).map (fun l => String.mk l)
    paragraphs.filterMap (fun para =>
      let para_lower := para.toLower
      let score := (keywords.filter (fun kw => strContains para_lower kw)).length
      if score > 0 then
        some { text := String.mk (((para.trim.toList).take 200).map
                 (fun ch => if ch = '\n' then ' ' else ch)),
               path := basename file.1,
               source := "fallback",
               score := (score : ℚ) / (max keywords.length 1 : ℚ),
               start_line := 0, end_line := 0, citation := "" }
      else none)

/-- Stable insertion step for the descending sort by score. -/
def insertByScore (x : MemResult) : List MemResult → List MemResult
  | [] => [x]
  | y :: ys => if y.score < x.score then x :: y :: ys else y :: insertByScore x ys

/-- Python `results.sort(key=lambda x: x["score"], reverse=True)`: the stable
descending sort by score (stable sorts with the same key agree, so insertion
sort models Python's sort exactly). -/
def sortByScoreDesc (l : List MemResult) : List MemResult :=
  l.foldl (fun acc x => insertByScore x acc) []

/-- `MemoryRecall._search_files_fallback` (`memory_recall.py` lines 98-136);
`files` is the list of candidate files (path, read outcome) assembled from
`MEMORY.md` and the newest seven `memory/*.md` files. -/
def search_files_fallback (query : String)
    (files : List (String × Except String String)) (max_results : ℕ) :
    List MemResult :=
  let keywords := lowerSplit query
  let results := (files.map (fileResults keywords)).flatten
  (sortByScoreDesc results).take max_results

/-- Mutable state of the `MemoryRecall` class: the insertion-ordered dict
`recall_cache : query_key -> (timestamp, results)`. -/
structure MemoryRecall where
  recall_cache : List (String × ℚ × List MemResult)
deriving DecidableEq

/-- `MemoryRecall.__init__`: empty cache. -/
def MemoryRecall.init : MemoryRecall := ⟨[]⟩

/-- `self.cache_ttl = 30`. -/
def cache_ttl : ℚ := 30

/-- Python dict assignment `d[k] = v`: update in place if present, else append. -/
def dictSet (d : List (String × ℚ × List MemResult)) (k : String)
    (v : ℚ × List MemResult) : List (String × ℚ × List MemResult) :=
  if (d.lookup k).isSome then d.map (fun p => if p.1 = k then (k, v) else p)
  else d ++ [(k, v)]

/-- `min(self.recall_cache, key=lambda k: self.recall_cache[k][0])`: the first
entry (in insertion order) with the smallest timestamp. -/
def minByInsertedAt : List (String × ℚ × List MemResult) →
    Option (String × ℚ × List MemResult)
  | [] => none
  | p :: ps =>
    match minByInsertedAt ps with
    | none => some p
    | some q => if q.2.1 < p.2.1 then some q else some p

/-- `del self.recall_cache[oldest]`. -/
def delKey (d : List (String × ℚ × List MemResult)) (k : String) :
    List (String × ℚ × List MemResult) :=
  d.filter (fun p => p.1 != k)

/-- Cache check of `search_memory` (`memory_recall.py` lines 29-34): a fresh
hit (strictly within the TTL) returns the cached results. -/
def MemoryRecall.cacheLookup (m : MemoryRecall) (now : ℚ) (key : String) :
    Option (List MemResult) :=
  match m.recall_cache.lookup key with
  | some (t, r) => if now - t < cache_ttl then some r else none
  | none => none

/-- `MemoryRecall.search_memory` (`memory_recall.py` lines 27-47). `remote`
is the outcome of `_invoke_memory_search` (`.error` = any raised exception:
network error, non-ok status, malformed response); `files` feeds the local
fallback. Returns (results, new state, whether a remote call was attempted). -/
def MemoryRecall.search_memory (m : MemoryRecall) (now : ℚ) (query : String)
    (remote : Except String (List MemResult))
    (files : List (String × Except String String)) (max_results : ℕ) :
    List MemResult × MemoryRecall × Bool :=
  let cache_key := query.take 80
  match m.cacheLookup now cache_key with
  | some r => (r, m, false)
  | none =>
    match remote with
    | .ok results =>
      let cache := dictSet m.recall_cache cache_key (now, results)
      let cache :=
        if cache.length > 50 then
          match minByInsertedAt cache with
          | some oldest => delKey cache oldest.1
          | none => cache
        else cache
      (results, ⟨cache⟩, true)
    | .error _ => (search_files_fallback query files max_results, m, true)

/-- Speech-related mutable state of the `CognitiveLoop` class
(`cognitive_loop.py` lines 44-51). -/
structure CognitiveLoop where
  last_monologue : String
  last_monologue_time : ℚ
  monologue_cooldown : ℚ
  last_emotion : String
  tts_enabled : Bool
deriving DecidableEq

/-- `CognitiveLoop.__init__` speech fields. -/
def CognitiveLoop.init : CognitiveLoop :=
  { last_monologue := "", last_monologue_time := 0, monologue_cooldown := 30,
    last_emotion := "", tts_enabled := true }

/-- `CognitiveLoop.speak` (`cognitive_loop.py` lines 100-118): returns the new
state and whether an asynchronous speech-synthesis request was dispatched. -/
def CognitiveLoop.speak (c : CognitiveLoop) (now : ℚ) (text : String) :
    CognitiveLoop × Bool :=
  if ¬ c.tts_enabled ∨ text = "" then (c, false)
  else if now - c.last_monologue_time < c.monologue_cooldown then (c, false)
  else if text = c.last_monologue then (c, false)
  else ({ c with last_monologue := text, last_monologue_time := now }, true)

/-- Monologue section of `CognitiveLoop.run_cycle` (`cognitive_loop.py` lines
254-267): updating `last_emotion` and gating the call to `speak`. -/
def CognitiveLoop.speechGate (c : CognitiveLoop) (now : ℚ)
    (emotion monologue : String) : CognitiveLoop × Bool :=
  let emotion_changed := emotion ≠ c.last_emotion
  let c' := { c with last_emotion := emotion }
  if monologue ≠ "" ∧ (emotion_changed ∨ now - c'.last_monologue_time > 60) then
    c'.speak now monologue
  else (c', false)

/-- Mutable state of the `Perception` class (`perception.py` lines 15-24). -/
structure Perception where
  last_data : PerceptionData
  last_update : ℚ
deriving DecidableEq

/-- `Perception.__init__`. -/
def Perception.init : Perception :=
  { last_data := { timestamp := 0, objects := [], scene := "waiting for perception data",
                   object_count := 0, has_person := false, stale := none, age := none },
    last_update := 0 }

/-- Python `round(x, 1)` (tie-breaking rule immaterial to the claims). -/
def roundTo1 (x : ℚ) : ℚ := ((round (x * 10) : ℤ) : ℚ) / 10

/-- `Perception.get_perception_data` (`perception.py` lines 36-51). -/
def Perception.get_perception_data (p : Perception) (now : ℚ) : PerceptionData :=
  let data := p.last_data
  let age := now - p.last_update
  let data :=
    if p.last_update > 0 ∧ age > 10 then
      { data with stale := some true, age := some (roundTo1 age) }
    else data
  if p.last_update = 0 then { data with scene := "no perception yet, eyes closed" }
  else data

/-- A perception snapshot with no person, used by the concrete witnesses. -/
def pdQuiet : PerceptionData :=
  { timestamp := 0, objects := [], scene := "empty room", object_count := 0,
    has_person := false, stale := none, age := none }

/-- A perception snapshot seeing a person, used by the concrete witnesses. -/
def pdPerson : PerceptionData :=
  { timestamp := 0, objects := [⟨"person", 85/100⟩], scene := "a person nearby",
    object_count := 1, has_person := true, stale := none, age := none }

/-- A sample remote search result used by the concrete witnesses. -/
def sampleRes : MemResult :=
  { text := "guitar session with Haruto", path := "MEMORY.md", source := "memory",
    score := 9/10, start_line := 1, end_line := 3, citation := "MEMORY.md:1-3" }
/-- The ten entries sitting in front of the oldest entry in the concrete
50-entry cache used by the eviction witness. -/
def evictBefore : List (String × ℚ × List MemResult) := [("k01", 1, []), ("k02", 2, []), ("k03", 3, []), ("k04", 4, []), ("k05", 5, []), ("k06", 6, []), ("k07", 7, []), ("k08", 8, []), ("k09", 9, []), ("k10", 10, [])]

/-- The oldest entry of the concrete 50-entry cache used by the eviction
witness; it sits in the middle of the insertion order, after ten younger
entries. -/
def evictE0 : String × ℚ × List MemResult := ("k00", 0, [])

/-- The 39 entries behind the oldest entry in the concrete 50-entry cache
used by the eviction witness. -/
def evictAfter : List (String × ℚ × List MemResult) := [("k11", 11, []), ("k12", 12, []), ("k13", 13, []), ("k14", 14, []), ("k15", 15, []), ("k16", 16, []), ("k17", 17, []), ("k18", 18, []), ("k19", 19, []), ("k20", 20, []), ("k21", 21, []), ("k22", 22, []), ("k23", 23, []), ("k24", 24, []), ("k25", 25, []), ("k26", 26, []), ("k27", 27, []), ("k28", 28, []), ("k29", 29, []), ("k30", 30, []), ("k31", 31, []), ("k32", 32, []), ("k33", 33, []), ("k34", 34, []), ("k35", 35, []), ("k36", 36, []), ("k37", 37, []), ("k38", 38, []), ("k39", 39, []), ("k40", 40, []), ("k41", 41, []), ("k42", 42, []), ("k43", 43, []), ("k44", 44, []), ("k45", 45, []), ("k46", 46, []), ("k47", 47, []), ("k48", 48, []), ("k49", 49, [])]

theorem Affect.eventUpdate_current_emotion (a : Affect) (now : ℚ) (hp : Bool)
    (motor : MotorState) (col : Bool) :
    (a.eventUpdate now hp motor col).current_emotion = a.current_emotion := by
  simp only [Affect.eventUpdate]
  split_ifs <;> rfl

theorem Affect.eventUpdate_history (a : Affect) (now : ℚ) (hp : Bool)
    (motor : MotorState) (col : Bool) :
    (a.eventUpdate now hp motor col).history = a.history := by
  simp only [Affect.eventUpdate]
  split_ifs <;> rfl

theorem Affect.eventUpdate_valence (a : Affect) (now : ℚ) (hp : Bool)
    (motor : MotorState) (col : Bool) :
    (a.eventUpdate now hp motor col).valence = a.valence := by
  simp only [Affect.eventUpdate]
  split_ifs <;> rfl

theorem Affect.eventUpdate_arousal (a : Affect) (now : ℚ) (hp : Bool)
    (motor : MotorState) (col : Bool) :
    (a.eventUpdate now hp motor col).arousal = a.arousal := by
  simp only [Affect.eventUpdate]
  split_ifs <;> rfl

theorem Affect.commit_history (a : Affect) (e : String) :
    (a.commit e).history = a.history := by
  simp only [Affect.commit]
  split_ifs <;> rfl

theorem Affect.commit_valence (a : Affect) (e : String) :
    (a.commit e).valence = a.valence := by
  simp only [Affect.commit]
  split_ifs <;> rfl

theorem Affect.commit_arousal (a : Affect) (e : String) :
    (a.commit e).arousal = a.arousal := by
  simp only [Affect.commit]
  split_ifs <;> rfl

theorem Affect.pushHistory_current_emotion (a : Affect) (e : String) :
    (a.pushHistory e).current_emotion = a.current_emotion := rfl

theorem Affect.pushHistory_valence (a : Affect) (e : String) :
    (a.pushHistory e).valence = a.valence := rfl

theorem Affect.pushHistory_arousal (a : Affect) (e : String) :
    (a.pushHistory e).arousal = a.arousal := rfl

theorem Affect.smooth_current_emotion (a : Affect) :
    a.smooth.current_emotion = a.current_emotion := rfl

theorem Affect.smooth_history (a : Affect) :
    a.smooth.history = a.history := rfl

theorem Affect.smooth_valence (a : Affect) :
    a.smooth.valence
      = a.valence + ((emotionTarget a.current_emotion).valence - a.valence) * (3/10) := rfl

theorem Affect.smooth_arousal (a : Affect) :
    a.smooth.arousal
      = a.arousal + ((emotionTarget a.current_emotion).arousal - a.arousal) * (3/10) := rfl

theorem Affect.pushHistory_getLast (a : Affect) (e : String) :
    (a.pushHistory e).history.getLast? = some e := by
  simp only [Affect.pushHistory]
  by_cases h : (a.history ++ [e]).length > 10
  · simp only [h, if_pos]
    cases hh : a.history with
    | nil => rw [hh] at h; simp at h
    | cons x xs =>
      simp only [List.cons_append, List.tail_cons, List.getLast?_concat]
  · simp only [h, if_neg, List.getLast?_concat]
    simp [List.getLast?_concat]

theorem Affect.pushHistory_length (a : Affect) (e : String)
    (h : a.history.length ≤ 10) : (a.pushHistory e).history.length ≤ 10 := by
  simp only [Affect.pushHistory]
  split_ifs with hl
  · simp only [List.length_tail, List.length_append, List.length_singleton]
    omega
  · simp only [List.length_append, List.length_singleton] at hl ⊢
    omega

theorem Affect.update_current_emotion (a : Affect) (now : ℚ) (pd : PerceptionData)
    (motor : MotorState) (collision : Bool) :
    (a.update now pd motor collision).current_emotion
      = ((a.eventUpdate now pd.has_person motor collision).commit
          ((a.eventUpdate now pd.has_person motor collision).classify now pd.has_person motor)).current_emotion := by
  simp only [Affect.update, Affect.smooth_current_emotion, Affect.pushHistory_current_emotion]

theorem Affect.update_history_getLast (a : Affect) (now : ℚ) (pd : PerceptionData)
    (motor : MotorState) (collision : Bool) :
    (a.update now pd motor collision).history.getLast?
      = some ((a.eventUpdate now pd.has_person motor collision).classify now pd.has_person motor) := by
  simp only [Affect.update, Affect.smooth_history, Affect.pushHistory_getLast]

theorem Affect.update_history_length (a : Affect) (now : ℚ) (pd : PerceptionData)
    (motor : MotorState) (collision : Bool) (h : a.history.length ≤ 10) :
    (a.update now pd motor collision).history.length ≤ 10 := by
  simp only [Affect.update, Affect.smooth_history]
  apply Affect.pushHistory_length
  rw [Affect.commit_history, Affect.eventUpdate_history]
  exact h

/-- Claim C1: a raw classification of `startled` (fresh collision) is written
to `current_emotion` on the very same `Affect.update` call, with no debounce
delay, whatever the prior `current_emotion` was. -/
theorem Affect.startled_applied_immediately (a : Affect) (now : ℚ)
    (pd : PerceptionData) (motor : MotorState) (collision : Bool)
    (h : (a.eventUpdate now pd.has_person motor collision).classify now pd.has_person motor
          = "startled") :
    (a.update now pd motor collision).current_emotion = "startled" := by
  rw [Affect.update_current_emotion, h]
  simp [Affect.commit]

theorem Affect.startled_applied_immediately_witness :
    ((Affect.init 0).update 100 pdQuiet (.str "stopped") true).current_emotion = "startled" :=
  Affect.startled_applied_immediately (Affect.init 0) 100 pdQuiet (.str "stopped") true
    (by with_unfolding_all rfl)

/-- Claim C9: `Affect.update` reads `motor_state` only through the comparison
`motor_state == "running"`, so any value that is not the exact string
`"running"` — including the dict `{"moving": ..., "direction": ...}` the
cognitive loop actually passes — produces exactly the state that the string
`"stopped"` produces. -/
theorem Affect.motor_not_running_eq_stopped (a : Affect) (now : ℚ)
    (pd : PerceptionData) (motor : MotorState) (collision : Bool)
    (h : motor ≠ .str "running") :
    a.update now pd motor collision = a.update now pd (.str "stopped") collision := by
  have hm : motor.eqRunning = false := by
    cases motor with
    | str s =>
      have hs : s ≠ "running" := fun hh => h (by rw [hh])
      simp [MotorState.eqRunning, hs]
    | dict m d => rfl
  have hs : (MotorState.str "stopped").eqRunning = false := rfl
  simp only [Affect.update, Affect.eventUpdate, Affect.classify, hm, hs]

theorem Affect.motor_not_running_eq_stopped_witness :
    (Affect.init 0).update 5 pdQuiet (.dict false "stop") false
      = (Affect.init 0).update 5 pdQuiet (.str "stopped") false :=
  Affect.motor_not_running_eq_stopped (Affect.init 0) 5 pdQuiet (.dict false "stop") false
    (by decide)

theorem lookup_mem_values {α β : Type} [BEq α] (a : α) (b : β) :
    ∀ l : List (α × β), l.lookup a = some b → b ∈ l.map Prod.snd
  | [], h => by simp [List.lookup] at h
  | (k, v) :: ps, h => by
    rw [List.lookup] at h
    cases hb : a == k
    · rw [hb] at h
      exact List.mem_cons_of_mem _ (lookup_mem_values a b ps h)
    · rw [hb] at h
      have hv : v = b := Option.some.inj h
      subst hv
      exact List.mem_cons_self _ _

theorem emotionTarget_unit (e : String) :
    0 ≤ (emotionTarget e).valence ∧ (emotionTarget e).valence ≤ 1 ∧
    0 ≤ (emotionTarget e).arousal ∧ (emotionTarget e).arousal ≤ 1 := by
  unfold emotionTarget
  cases h : EMOTIONS.lookup e with
  | none => norm_num
  | some v =>
    have hv : v ∈ EMOTIONS.map Prod.snd := lookup_mem_values e v EMOTIONS h
    simp only [EMOTIONS, List.map_cons, List.map_nil, List.mem_cons,
      List.not_mem_nil, or_false] at hv
    rcases hv with rfl | rfl | rfl | rfl | rfl | rfl | rfl | rfl <;> norm_num

theorem Affect.update_valence (a : Affect) (now : ℚ) (pd : PerceptionData)
    (motor : MotorState) (collision : Bool) :
    (a.update now pd motor collision).valence
      = a.valence
        + ((emotionTarget (a.update now pd motor collision).current_emotion).valence
            - a.valence) * (3/10) := by
  simp only [Affect.update, Affect.smooth_valence, Affect.smooth_current_emotion,
    Affect.pushHistory_valence, Affect.commit_valence, Affect.eventUpdate_valence]

theorem Affect.update_arousal (a : Affect) (now : ℚ) (pd : PerceptionData)
    (motor : MotorState) (collision : Bool) :
    (a.update now pd motor collision).arousal
      = a.arousal
        + ((emotionTarget (a.update now pd motor collision).current_emotion).arousal
            - a.arousal) * (3/10) := by
  simp only [Affect.update, Affect.smooth_arousal, Affect.smooth_current_emotion,
    Affect.pushHistory_arousal, Affect.commit_arousal, Affect.eventUpdate_arousal]

theorem convex_step_unit {v t : ℚ} (h0 : 0 ≤ v) (h1 : v ≤ 1) (t0 : 0 ≤ t) (t1 : t ≤ 1) :
    0 ≤ v + (t - v) * (3/10) ∧ v + (t - v) * (3/10) ≤ 1 := by
  constructor <;> nlinarith

theorem Affect.update_unit (a : Affect) (now : ℚ) (pd : PerceptionData)
    (motor : MotorState) (collision : Bool)
    (h : 0 ≤ a.valence ∧ a.valence ≤ 1 ∧ 0 ≤ a.arousal ∧ a.arousal ≤ 1) :
    0 ≤ (a.update now pd motor collision).valence ∧
    (a.update now pd motor collision).valence ≤ 1 ∧
    0 ≤ (a.update now pd motor collision).arousal ∧
    (a.update now pd motor collision).arousal ≤ 1 := by
  obtain ⟨h0, h1, h2, h3⟩ := h
  obtain ⟨t0, t1, t2, t3⟩ := emotionTarget_unit (a.update now pd motor collision).current_emotion
  rw [Affect.update_valence, Affect.update_arousal]
  obtain ⟨g0, g1⟩ := convex_step_unit h0 h1 t0 t1
  obtain ⟨g2, g3⟩ := convex_step_unit h2 h3 t2 t3
  exact ⟨g0, g1, g2, g3⟩

theorem Affect.runUpdates_unit (l : List CycleInput) (a : Affect)
    (h : 0 ≤ a.valence ∧ a.valence ≤ 1 ∧ 0 ≤ a.arousal ∧ a.arousal ≤ 1) :
    0 ≤ (a.runUpdates l).valence ∧ (a.runUpdates l).valence ≤ 1 ∧
    0 ≤ (a.runUpdates l).arousal ∧ (a.runUpdates l).arousal ≤ 1 := by
  induction l generalizing a with
  | nil => exact h
  | cons c cs ih =>
    exact ih (a.update c.now c.pd c.motor c.collision)
      (Affect.update_unit a c.now c.pd c.motor c.collision h)

/-- Claim C3: starting from the initial affect state (valence 0.5, arousal
0.2), after any sequence of `Affect.update` calls with any inputs, `valence`
and `arousal` remain within [0, 1]: every step is the convex combination
`value + (target - value) * 0.3` with all table targets inside [0, 1]. -/
theorem Affect.valence_arousal_in_unit_interval (t0 : ℚ) (l : List CycleInput) :
    0 ≤ ((Affect.init t0).runUpdates l).valence ∧
    ((Affect.init t0).runUpdates l).valence ≤ 1 ∧
    0 ≤ ((Affect.init t0).runUpdates l).arousal ∧
    ((Affect.init t0).runUpdates l).arousal ≤ 1 :=
  Affect.runUpdates_unit l (Affect.init t0) (by norm_num [Affect.init])

theorem Affect.commit_current_of_new (a : Affect) (e : String)
    (hs : e ≠ "startled") (hd : e ≠ a.current_emotion) :
    (a.commit e).current_emotion
      = if a.history.getLast? = some e then e else a.current_emotion := by
  simp only [Affect.commit, if_pos (And.intro hs hd)]
  split_ifs <;> rfl

/-- Claim C2: a non-startled raw classification `raw2` differing from the
committed emotion is committed on the second of two consecutive calls iff it
equals the previous call's raw classification `raw1`; a single fluctuation
leaves `current_emotion` unchanged; and the raw value is appended to the
history, which stays bounded by 10, committed or not. -/
theorem Affect.nonstartled_two_cycle_debounce
    (a0 : Affect) (n1 n2 : ℚ) (p1 p2 : PerceptionData) (m1 m2 : MotorState)
    (c1 c2 : Bool) (raw1 raw2 : String)
    (h1 : raw1 = (a0.eventUpdate n1 p1.has_person m1 c1).classify n1 p1.has_person m1)
    (h2 : raw2 = ((a0.update n1 p1 m1 c1).eventUpdate n2 p2.has_person m2 c2).classify
                    n2 p2.has_person m2)
    (hs : raw2 ≠ "startled")
    (hd : raw2 ≠ (a0.update n1 p1 m1 c1).current_emotion)
    (hlen : a0.history.length ≤ 10) :
    (((a0.update n1 p1 m1 c1).update n2 p2 m2 c2).current_emotion = raw2 ↔ raw2 = raw1)
    ∧ (raw2 ≠ raw1 →
        ((a0.update n1 p1 m1 c1).update n2 p2 m2 c2).current_emotion
          = (a0.update n1 p1 m1 c1).current_emotion)
    ∧ ((a0.update n1 p1 m1 c1).update n2 p2 m2 c2).history.getLast? = some raw2
    ∧ ((a0.update n1 p1 m1 c1).update n2 p2 m2 c2).history.length ≤ 10 := by
  have hlast : (a0.update n1 p1 m1 c1).history.getLast? = some raw1 := by
    rw [h1]
    exact Affect.update_history_getLast a0 n1 p1 m1 c1
  have hev_cur := Affect.eventUpdate_current_emotion (a0.update n1 p1 m1 c1)
    n2 p2.has_person m2 c2
  have hev_his := Affect.eventUpdate_history (a0.update n1 p1 m1 c1)
    n2 p2.has_person m2 c2
  have hcur : ((a0.update n1 p1 m1 c1).update n2 p2 m2 c2).current_emotion
      = if (a0.update n1 p1 m1 c1).history.getLast? = some raw2 then raw2
        else (a0.update n1 p1 m1 c1).current_emotion := by
    rw [Affect.update_current_emotion, ← h2,
        Affect.commit_current_of_new _ _ hs (by rw [hev_cur]; exact hd),
        hev_his, hev_cur]
  have hcond : ((a0.update n1 p1 m1 c1).history.getLast? = some raw2) ↔ raw2 = raw1 := by
    rw [hlast]
    constructor
    · intro hh
      exact (Option.some.inj hh).symm
    · intro hh
      rw [hh]
  refine ⟨⟨?_, ?_⟩, ?_, ?_, ?_⟩
  · intro hfin
    by_cases hc : (a0.update n1 p1 m1 c1).history.getLast? = some raw2
    · exact hcond.mp hc
    · rw [hcur, if_neg hc] at hfin
      exact absurd hfin.symm hd
  · intro hh
    rw [hcur, if_pos (hcond.mpr hh)]
  · intro hne
    rw [hcur, if_neg (fun hc => hne (hcond.mp hc))]
  · rw [Affect.update_history_getLast, ← h2]
  · exact Affect.update_history_length _ n2 p2 m2 c2
      (Affect.update_history_length a0 n1 p1 m1 c1 hlen)

theorem Affect.nonstartled_two_cycle_debounce_witness :
    ((((Affect.init 0).update 1000 pdQuiet (.str "stopped") false).update
        1001 pdPerson (.str "stopped") false).current_emotion = "happy" ↔ "happy" = "calm")
    ∧ ("happy" ≠ "calm" →
        (((Affect.init 0).update 1000 pdQuiet (.str "stopped") false).update
          1001 pdPerson (.str "stopped") false).current_emotion
          = ((Affect.init 0).update 1000 pdQuiet (.str "stopped") false).current_emotion)
    ∧ (((Affect.init 0).update 1000 pdQuiet (.str "stopped") false).update
        1001 pdPerson (.str "stopped") false).history.getLast? = some "happy"
    ∧ (((Affect.init 0).update 1000 pdQuiet (.str "stopped") false).update
        1001 pdPerson (.str "stopped") false).history.length ≤ 10 :=
  Affect.nonstartled_two_cycle_debounce (Affect.init 0) 1000 1001 pdQuiet pdPerson
    (.str "stopped") (.str "stopped") false false "calm" "happy"
    (by with_unfolding_all rfl) (by with_unfolding_all rfl) (by decide)
    (by with_unfolding_all decide) (by decide)

theorem lookup_append_fresh (d : List (String × ℚ × List MemResult)) (k : String)
    (v : ℚ × List MemResult) (h : d.lookup k = none) :
    (d ++ [(k, v)]).lookup k = some v := by
  induction d with
  | nil => simp [List.lookup]
  | cons p ps ih =>
    obtain ⟨k0, v0⟩ := p
    rw [List.lookup] at h
    rw [List.cons_append, List.lookup]
    cases hb : k == k0
    · rw [hb] at h
      exact ih h
    · rw [hb] at h
      cases h

theorem lookup_none_keys (d : List (String × ℚ × List MemResult)) (k : String)
    (h : d.lookup k = none) : ∀ p ∈ d, p.1 ≠ k := by
  induction d with
  | nil => intro p hp; cases hp
  | cons p0 ps ih =>
    obtain ⟨k0, v0⟩ := p0
    rw [List.lookup] at h
    cases hb : k == k0
    · rw [hb] at h
      intro p hp
      rcases List.mem_cons.mp hp with rfl | hmem
      · intro hk
        have hk0 : k0 = k := hk
        rw [hk0] at hb
        simp at hb
      · exact ih h p hmem
    · rw [hb] at h
      cases h

theorem lookup_filter_ne (j k : String) (h : k ≠ j) :
    ∀ d : List (String × ℚ × List MemResult),
      (d.filter (fun p => p.1 != j)).lookup k = d.lookup k
  | [] => rfl
  | (k0, v0) :: ps => by
    by_cases h0 : k0 = j
    · have hf : ((k0, v0).1 != j) = false := by simp [h0]
      rw [List.filter_cons, hf]
      have hkk0 : (k == k0) = false := by
        subst h0
        simp [h]
      calc ((ps.filter (fun p => p.1 != j)).lookup k) = ps.lookup k :=
            lookup_filter_ne j k h ps
        _ = ((k0, v0) :: ps).lookup k := by
            show List.lookup k ps
              = match k == k0 with | true => some v0 | false => List.lookup k ps
            rw [hkk0]
    · have hf : ((k0, v0).1 != j) = true := by simp [h0]
      rw [List.filter_cons, hf]
      show (match k == k0 with
            | true => some v0
            | false => (ps.filter (fun p => p.1 != j)).lookup k)
          = ((k0, v0) :: ps).lookup k
      cases hb : k == k0
      · show (ps.filter (fun p => p.1 != j)).lookup k
          = match k == k0 with | true => some v0 | false => List.lookup k ps
        rw [hb]
        exact lookup_filter_ne j k h ps
      · show some v0 = match k == k0 with | true => some v0 | false => List.lookup k ps
        rw [hb]

theorem lookup_delKey_ne (d : List (String × ℚ × List MemResult)) (j k : String)
    (h : k ≠ j) : (delKey d j).lookup k = d.lookup k :=
  lookup_filter_ne j k h d

theorem minByInsertedAt_mem (l : List (String × ℚ × List MemResult))
    (p : String × ℚ × List MemResult) (h : minByInsertedAt l = some p) : p ∈ l := by
  induction l generalizing p with
  | nil => cases h
  | cons a as ih =>
    rw [minByInsertedAt] at h
    cases hm : minByInsertedAt as with
    | none =>
      rw [hm] at h
      have h' : some a = some p := h
      cases h'
      exact List.mem_cons_self _ _
    | some q =>
      rw [hm] at h
      have h' : (if q.2.1 < a.2.1 then some q else some a) = some p := h
      split_ifs at h' with hlt
      · cases h'
        exact List.mem_cons_of_mem _ (ih _ hm)
      · cases h'
        exact List.mem_cons_self _ _

theorem minByInsertedAt_unique_min (l : List (String × ℚ × List MemResult))
    (e0 : String × ℚ × List MemResult) (he0 : e0 ∈ l)
    (hmin : ∀ p ∈ l, p ≠ e0 → e0.2.1 < p.2.1) :
    minByInsertedAt l = some e0 := by
  induction l with
  | nil => cases he0
  | cons a as ih =>
    rw [minByInsertedAt]
    rcases List.mem_cons.mp he0 with rfl | hmem
    · cases hm2 : minByInsertedAt as with
      | none => rfl
      | some q =>
        show (if q.2.1 < e0.2.1 then some q else some e0) = some e0
        by_cases hqe : q = e0
        · subst hqe
          rw [if_neg (lt_irrefl _)]
        · have hq : q ∈ as := minByInsertedAt_mem as q hm2
          rw [if_neg (not_lt.mpr (le_of_lt
            (hmin q (List.mem_cons_of_mem _ hq) hqe)))]
    · have hm2 : minByInsertedAt as = some e0 :=
        ih hmem (fun p hp hpe => hmin p (List.mem_cons_of_mem _ hp) hpe)
      rw [hm2]
      show (if e0.2.1 < a.2.1 then some e0 else some a) = some e0
      by_cases hae : a = e0
      · subst hae
        rw [if_neg (lt_irrefl _)]
      · rw [if_pos (hmin a (List.mem_cons_self _ _) hae)]

theorem minByInsertedAt_isSome (l : List (String × ℚ × List MemResult))
    (h : l ≠ []) : (minByInsertedAt l).isSome = true := by
  cases l with
  | nil => exact absurd rfl h
  | cons a as =>
    rw [minByInsertedAt]
    cases minByInsertedAt as with
    | none => rfl
    | some q =>
      show (if q.2.1 < a.2.1 then some q else some a).isSome = true
      split_ifs <;> rfl

theorem minByInsertedAt_append_last_mem (d : List (String × ℚ × List MemResult))
    (x : String × ℚ × List MemResult) (hd : d ≠ [])
    (h : ∀ p ∈ d, p.2.1 ≤ x.2.1) :
    ∃ p ∈ d, minByInsertedAt (d ++ [x]) = some p := by
  induction d with
  | nil => exact absurd rfl hd
  | cons a as ih =>
    rw [List.cons_append, minByInsertedAt]
    cases hm : minByInsertedAt (as ++ [x]) with
    | none =>
      have hsome := minByInsertedAt_isSome (as ++ [x]) (by simp)
      rw [hm] at hsome
      cases hsome
    | some q =>
      show ∃ p, p ∈ a :: as ∧ (if q.2.1 < a.2.1 then some q else some a) = some p
      cases as with
      | nil =>
        have hq : x = q := by
          rw [List.nil_append, minByInsertedAt] at hm
          exact Option.some.inj hm
        subst hq
        rw [if_neg (not_lt.mpr (h a (List.mem_cons_self _ _)))]
        exact ⟨a, List.mem_cons_self _ _, rfl⟩
      | cons b bs =>
        obtain ⟨p, hp, hmin⟩ := ih (by intro hc; cases hc)
          (fun r hr => h r (List.mem_cons_of_mem _ hr))
        have hpq : p = q := Option.some.inj (hmin.symm.trans hm)
        subst hpq
        by_cases hlt : p.2.1 < a.2.1
        · rw [if_pos hlt]
          exact ⟨p, List.mem_cons_of_mem _ hp, rfl⟩
        · rw [if_neg hlt]
          exact ⟨a, List.mem_cons_self _ _, rfl⟩

theorem MemoryRecall.search_memory_miss_ok (m : MemoryRecall) (now : ℚ) (q : String)
    (r : List MemResult) (files : List (String × Except String String)) (mr : ℕ)
    (hmiss : m.recall_cache.lookup (q.take 80) = none)
    (htimes : ∀ p ∈ m.recall_cache, p.2.1 ≤ now) :
    (m.search_memory now q (.ok r) files mr).1 = r
    ∧ (m.search_memory now q (.ok r) files mr).2.2 = true
    ∧ (m.search_memory now q (.ok r) files mr).2.1.recall_cache.lookup (q.take 80)
        = some (now, r) := by
  have hcl : m.cacheLookup now (q.take 80) = none := by
    simp [MemoryRecall.cacheLookup, hmiss]
  have hds : dictSet m.recall_cache (q.take 80) (now, r)
      = m.recall_cache ++ [(q.take 80, now, r)] := by
    simp [dictSet, hmiss]
  simp only [MemoryRecall.search_memory, hcl, hds]
  by_cases hbig : (m.recall_cache ++ [(q.take 80, now, r)]).length > 50
  · have hne : m.recall_cache ≠ [] := by
      intro hnil
      rw [hnil] at hbig
      simp at hbig
    obtain ⟨p, hp, hminEq⟩ := minByInsertedAt_append_last_mem m.recall_cache
      (q.take 80, now, r) hne htimes
    have hkey : q.take 80 ≠ p.1 := Ne.symm (lookup_none_keys _ _ hmiss p hp)
    rw [if_pos hbig, hminEq]
    refine ⟨trivial, trivial, ?_⟩
    show (delKey (m.recall_cache ++ [(q.take 80, now, r)]) p.1).lookup (q.take 80)
        = some (now, r)
    rw [lookup_delKey_ne _ _ _ hkey]
    exact lookup_append_fresh _ _ _ hmiss
  · rw [if_neg hbig]
    exact ⟨trivial, trivial, lookup_append_fresh _ _ _ hmiss⟩

/-- Claim C4: a second `search_memory` call whose query shares the same
first-80-character key, made strictly within 30 seconds of a successful first
call, returns the identical cached result list with no remote attempt and no
state change; once 30 or more seconds have elapsed since the entry was
inserted, the second call makes a remote attempt instead. -/
theorem MemoryRecall.cache_hit_within_ttl (m : MemoryRecall) (n1 n2 : ℚ)
    (q1 q2 : String) (r : List MemResult)
    (files1 files2 : List (String × Except String String))
    (remote2 : Except String (List MemResult)) (mr1 mr2 : ℕ)
    (hkey : q2.take 80 = q1.take 80)
    (hmiss : m.recall_cache.lookup (q1.take 80) = none)
    (htimes : ∀ p ∈ m.recall_cache, p.2.1 ≤ n1) :
    ((n2 - n1 < 30) →
      (m.search_memory n1 q1 (.ok r) files1 mr1).2.1.search_memory n2 q2 remote2 files2 mr2
        = (r, (m.search_memory n1 q1 (.ok r) files1 mr1).2.1, false))
    ∧ ((30 ≤ n2 - n1) →
      ((m.search_memory n1 q1 (.ok r) files1 mr1).2.1.search_memory
          n2 q2 remote2 files2 mr2).2.2 = true) := by
  obtain ⟨hr, hflag, hlook⟩ := MemoryRecall.search_memory_miss_ok m n1 q1 r files1 mr1
    hmiss htimes
  set m1 := (m.search_memory n1 q1 (Except.ok r) files1 mr1).2.1 with hm1
  constructor
  · intro hfresh
    have hcl2 : m1.cacheLookup n2 (q2.take 80) = some r := by
      rw [MemoryRecall.cacheLookup, hkey, hlook]
      show (if n2 - n1 < cache_ttl then some r else none) = some r
      exact if_pos hfresh
    simp only [MemoryRecall.search_memory, hcl2]
  · intro hstale
    have hcl2 : m1.cacheLookup n2 (q2.take 80) = none := by
      rw [MemoryRecall.cacheLookup, hkey, hlook]
      show (if n2 - n1 < cache_ttl then some r else none) = none
      exact if_neg (not_lt.mpr hstale)
    simp only [MemoryRecall.search_memory, hcl2]
    cases remote2 <;> rfl


/-- Claim C5: from any 50-entry cache with distinct keys whose entry with the
strictly smallest insertion timestamp, `e0`, sits at an arbitrary position
(`l1 ++ e0 :: l2`), a successful `search_memory` call with a fresh 51st key
evicts exactly `e0`; every other entry survives in order, the newly inserted
entry survives, and the cache holds exactly 50 entries afterwards. -/
theorem MemoryRecall.eviction_oldest (m : MemoryRecall)
    (l1 l2 : List (String × ℚ × List MemResult))
    (e0 : String × ℚ × List MemResult)
    (now : ℚ) (q : String) (r : List MemResult)
    (files : List (String × Except String String)) (mr : ℕ)
    (hm : m.recall_cache = l1 ++ e0 :: l2)
    (hlen : (l1 ++ e0 :: l2).length = 50)
    (hnodup : ((l1 ++ e0 :: l2).map Prod.fst).Nodup)
    (hmiss : (l1 ++ e0 :: l2 : List (String × ℚ × List MemResult)).lookup
        (q.take 80) = none)
    (hmin : ∀ p ∈ l1 ++ e0 :: l2, p ≠ e0 → e0.2.1 < p.2.1)
    (hnow : ∀ p ∈ l1 ++ e0 :: l2, p.2.1 < now) :
    (m.search_memory now q (.ok r) files mr).2.1.recall_cache
        = l1 ++ l2 ++ [(q.take 80, now, r)]
    ∧ (m.search_memory now q (.ok r) files mr).2.1.recall_cache.length = 50
    ∧ (q.take 80, now, r) ∈ (m.search_memory now q (.ok r) files mr).2.1.recall_cache := by
  have he0mem : e0 ∈ l1 ++ e0 :: l2 :=
    List.mem_append_right _ (List.mem_cons_self _ _)
  have hcl : m.cacheLookup now (q.take 80) = none := by
    simp [MemoryRecall.cacheLookup, hm, hmiss]
  have hds : dictSet m.recall_cache (q.take 80) (now, r)
      = (l1 ++ e0 :: l2) ++ [(q.take 80, now, r)] := by
    rw [hm]
    simp [dictSet, hmiss]
  have hbig : ((l1 ++ e0 :: l2) ++ [(q.take 80, now, r)]).length > 50 := by
    simp only [List.length_append, List.length_cons, List.length_singleton]
    simp only [List.length_append, List.length_cons] at hlen
    omega
  have hminEq : minByInsertedAt ((l1 ++ e0 :: l2) ++ [(q.take 80, now, r)])
      = some e0 := by
    apply minByInsertedAt_unique_min _ _ (List.mem_append_left _ he0mem)
    intro p hp hne
    rcases List.mem_append.mp hp with hp1 | hp2
    · exact hmin p hp1 hne
    · have hp2' : p = (q.take 80, now, r) := List.mem_singleton.mp hp2
      subst hp2'
      exact hnow e0 he0mem
  have hnodup' := hnodup
  rw [List.map_append, List.map_cons] at hnodup'
  have hsplit := List.nodup_append.mp hnodup'
  have hne_l1 : ∀ p ∈ l1, p.1 ≠ e0.1 := by
    intro p hp he
    have hmem2 : p.1 ∈ e0.1 :: l2.map Prod.fst := by
      rw [he]
      exact List.mem_cons_self _ _
    exact hsplit.2.2 (List.mem_map_of_mem Prod.fst hp) hmem2
  have hne_l2 : ∀ p ∈ l2, p.1 ≠ e0.1 := by
    intro p hp he
    apply (List.nodup_cons.mp hsplit.2.1).1
    rw [← he]
    exact List.mem_map_of_mem Prod.fst hp
  have hkeyne : q.take 80 ≠ e0.1 :=
    Ne.symm (lookup_none_keys _ _ hmiss e0 he0mem)
  have hdel : delKey ((l1 ++ e0 :: l2) ++ [(q.take 80, now, r)]) e0.1
      = l1 ++ l2 ++ [(q.take 80, now, r)] := by
    rw [delKey, List.filter_append, List.filter_append, List.filter_cons]
    have hb : (e0.1 != e0.1) = false := by simp
    simp only [hb, Bool.false_eq_true, if_false]
    have h1 : l1.filter (fun p => p.1 != e0.1) = l1 :=
      List.filter_eq_self.mpr (fun p hp => by simp [hne_l1 p hp])
    have h2 : l2.filter (fun p => p.1 != e0.1) = l2 :=
      List.filter_eq_self.mpr (fun p hp => by simp [hne_l2 p hp])
    have h3 : ([(q.take 80, now, r)].filter (fun p => p.1 != e0.1))
        = [(q.take 80, now, r)] :=
      List.filter_eq_self.mpr (fun p hp => by
        have hp' : p = (q.take 80, now, r) := List.mem_singleton.mp hp
        subst hp'
        simp [hkeyne])
    rw [h1, h2, h3]
  have hcache : (m.search_memory now q (.ok r) files mr).2.1.recall_cache
      = l1 ++ l2 ++ [(q.take 80, now, r)] := by
    simp only [MemoryRecall.search_memory, hcl, hds]
    rw [if_pos hbig, hminEq]
    exact hdel
  refine ⟨hcache, ?_, ?_⟩
  · rw [hcache]
    simp only [List.length_append, List.length_singleton]
    simp only [List.length_append, List.length_cons] at hlen
    omega
  · rw [hcache]
    exact List.mem_append_right _ (List.mem_singleton_self _)

theorem MemoryRecall.cache_hit_within_ttl_witness :
    ((MemoryRecall.init.search_memory 0 "hello" (.ok [sampleRes]) [] 5).2.1.search_memory
        10 "hello" (.error "net down") [] 5)
      = ([sampleRes], (MemoryRecall.init.search_memory 0 "hello" (.ok [sampleRes]) [] 5).2.1,
          false) :=
  (MemoryRecall.cache_hit_within_ttl MemoryRecall.init 0 10 "hello" "hello" [sampleRes]
    [] [] (.error "net down") 5 5 rfl rfl
    (by intro p hp; cases hp)).1 (by norm_num)

set_option maxRecDepth 40000 in
theorem MemoryRecall.eviction_oldest_witness :
    ((⟨evictBefore ++ evictE0 :: evictAfter⟩ : MemoryRecall).search_memory 100 "newquery"
        (.ok [sampleRes]) [] 5).2.1.recall_cache
      = evictBefore ++ evictAfter ++ [("newquery".take 80, 100, [sampleRes])]
    ∧ ((⟨evictBefore ++ evictE0 :: evictAfter⟩ : MemoryRecall).search_memory 100 "newquery"
        (.ok [sampleRes]) [] 5).2.1.recall_cache.length = 50
    ∧ ("newquery".take 80, (100 : ℚ), [sampleRes]) ∈
        ((⟨evictBefore ++ evictE0 :: evictAfter⟩ : MemoryRecall).search_memory 100 "newquery"
          (.ok [sampleRes]) [] 5).2.1.recall_cache :=
  MemoryRecall.eviction_oldest ⟨evictBefore ++ evictE0 :: evictAfter⟩ evictBefore evictAfter
    evictE0 100 "newquery" [sampleRes] [] 5 rfl (by with_unfolding_all rfl)
    (by with_unfolding_all decide) (by with_unfolding_all decide)
    (by with_unfolding_all decide) (by with_unfolding_all decide)

/-- Claim C6 (counterexample): a `search_memory` call whose remote search
fails produces non-empty fallback results, yet nothing is cached under the
query key — the cache stays empty — and a repeated call with the same key one
second later (well within the 30-second TTL) makes another remote attempt
instead of returning the fallback results from the cache. -/
theorem MemoryRecall.fallback_cached_cex :
    (MemoryRecall.init.search_memory 0 "memory" (Except.error "down")
        [("MEMORY.md", Except.ok "memory of the guitar")] 5).1 ≠ []
    ∧ (MemoryRecall.init.search_memory 0 "memory" (Except.error "down")
        [("MEMORY.md", Except.ok "memory of the guitar")] 5).2.1.recall_cache = []
    ∧ ((MemoryRecall.init.search_memory 0 "memory" (Except.error "down")
        [("MEMORY.md", Except.ok "memory of the guitar")] 5).2.1.search_memory 1 "memory"
        (Except.error "down") [("MEMORY.md", Except.ok "memory of the guitar")] 5).2.2
        = true := by
  refine ⟨?_, ?_, ?_⟩
  · with_unfolding_all decide
  · with_unfolding_all rfl
  · with_unfolding_all rfl

/-- Claim C6 (amended): when the remote search fails, the fallback results are
returned but are NOT cached — the `MemoryRecall` state is left completely
unchanged by the call, whether or not the key was cached before. -/
theorem MemoryRecall.remote_failure_state_unchanged (m : MemoryRecall) (now : ℚ)
    (q msg : String) (files : List (String × Except String String)) (mr : ℕ) :
    (m.search_memory now q (.error msg) files mr).2.1 = m := by
  simp only [MemoryRecall.search_memory]
  cases hcl : m.cacheLookup now (q.take 80) <;> rfl

/-- Claim C7: remote-search failures never propagate out of `search_memory`:
on a cache miss with a failing remote call the function returns exactly the
local fallback results with the state unchanged (and a remote attempt
recorded); and inside the fallback, a file whose read fails is skipped while
every other file is still searched, leaving the results identical to a run
without that file. -/
theorem MemoryRecall.search_failures_degrade (m : MemoryRecall) (now : ℚ)
    (q msg : String) (files : List (String × Except String String)) (mr : ℕ)
    (hmiss : m.cacheLookup now (q.take 80) = none) :
    m.search_memory now q (.error msg) files mr
      = (search_files_fallback q files mr, m, true)
    ∧ ∀ (f1 : List (String × Except String String)) (p emsg : String)
        (f2 : List (String × Except String String)),
        search_files_fallback q (f1 ++ (p, Except.error emsg) :: f2) mr
          = search_files_fallback q (f1 ++ f2) mr := by
  constructor
  · simp only [MemoryRecall.search_memory, hmiss]
  · intro f1 p emsg f2
    simp only [search_files_fallback, List.map_append, List.map_cons,
      List.flatten_append, List.flatten_cons]
    have hfr : fileResults (lowerSplit q) (p, Except.error emsg) = [] := rfl
    rw [hfr, List.nil_append]

theorem MemoryRecall.search_failures_degrade_witness :
    MemoryRecall.init.search_memory 0 "memory" (Except.error "boom")
        [("MEMORY.md", Except.ok "memory notes"), ("broken.md", Except.error "denied")] 3
      = (search_files_fallback "memory"
          [("MEMORY.md", Except.ok "memory notes"), ("broken.md", Except.error "denied")] 3,
         MemoryRecall.init, true) :=
  (MemoryRecall.search_failures_degrade MemoryRecall.init 0 "memory" "boom"
    [("MEMORY.md", Except.ok "memory notes"), ("broken.md", Except.error "denied")] 3
    (by with_unfolding_all rfl)).1

theorem CognitiveLoop.speechGate_last_emotion (c : CognitiveLoop) (now : ℚ)
    (e mtext : String) : ((c.speechGate now e mtext).1).last_emotion = e := by
  simp only [CognitiveLoop.speechGate, CognitiveLoop.speak]
  split_ifs <;> rfl

theorem CognitiveLoop.speechGate_no_request (c : CognitiveLoop) (now : ℚ)
    (e mtext : String)
    (h : ¬(mtext ≠ "" ∧ (e ≠ c.last_emotion ∨ now - c.last_monologue_time > 60))) :
    (c.speechGate now e mtext).2 = false := by
  have h' : ¬(mtext ≠ "" ∧ (e ≠ c.last_emotion
      ∨ now - ({ c with last_emotion := e } : CognitiveLoop).last_monologue_time > 60)) := h
  simp only [CognitiveLoop.speechGate]
  rw [if_neg h']

/-- Claim C8: across two consecutive cycles with the same committed emotion
and the same non-empty monologue text, if fewer than 60 seconds have elapsed
since the last spoken utterance, the second cycle issues no speech-synthesis
request. -/
theorem CognitiveLoop.no_repeat_speech_within_60s (c0 : CognitiveLoop) (n1 n2 : ℚ)
    (e mtext : String) (_hm : mtext ≠ "")
    (hlt : n2 - ((c0.speechGate n1 e mtext).1).last_monologue_time < 60) :
    ((c0.speechGate n1 e mtext).1.speechGate n2 e mtext).2 = false := by
  apply CognitiveLoop.speechGate_no_request
  rintro ⟨-, h | h⟩
  · exact h (CognitiveLoop.speechGate_last_emotion c0 n1 e mtext).symm
  · linarith

theorem CognitiveLoop.no_repeat_speech_within_60s_witness :
    ((CognitiveLoop.init.speechGate 100 "calm" "hello there").1.speechGate
        110 "calm" "hello there").2 = false :=
  CognitiveLoop.no_repeat_speech_within_60s CognitiveLoop.init 100 110 "calm" "hello there"
    (by decide) (by with_unfolding_all decide)

/-- Claim C10: before any perception message has been received
(`_last_update = 0`), `get_perception_data` never sets the stale/age flags no
matter how much time has passed, returning the stored snapshot with scene
`"no perception yet, eyes closed"`; and the stale flag is set exactly when a
message has been received and more than 10 seconds have elapsed since it. -/
theorem Perception.stale_only_after_first_message (p : Perception) (now : ℚ)
    (hstale : p.last_data.stale = none) :
    (p.last_update = 0 →
      p.get_perception_data now
        = { p.last_data with scene := "no perception yet, eyes closed" })
    ∧ ((p.get_perception_data now).stale = some true
        ↔ p.last_update > 0 ∧ now - p.last_update > 10) := by
  constructor
  · intro h0
    simp [Perception.get_perception_data, h0]
  · by_cases hc : p.last_update > 0 ∧ now - p.last_update > 10
    · simp only [Perception.get_perception_data, if_pos hc]
      split_ifs <;> simp [hc]
    · simp only [Perception.get_perception_data, if_neg hc]
      split_ifs <;> simp [hstale, hc]

theorem Perception.stale_only_after_first_message_witness :
    (Perception.init.get_perception_data 1000
        = { Perception.init.last_data with scene := "no perception yet, eyes closed" })
    ∧ ((Perception.init.get_perception_data 1000).stale = some true
        ↔ Perception.init.last_update > 0 ∧ 1000 - Perception.init.last_update > 10) :=
  ⟨(Perception.stale_only_after_first_message Perception.init 1000 rfl).1 rfl,
   (Perception.stale_only_after_first_message Perception.init 1000 rfl).2⟩
